import Mathlib

/- Verification development for the generateprevisibines orchestration core:
   the 8-step workflow engine (src/workflow.rs), the CreationKit / FO4Edit
   tool invocation and log classification layer (src/tools/creation_kit.rs,
   src/tools/fo4edit.rs), the DLL resource guard (src/tools/dll_manager.rs),
   the archive backend (src/tools/archive.rs), the MO2 overlay collector
   (src/mo2_helper.rs) and the directory helpers (src/filesystem.rs).
   External effects (the real filesystem, subordinate processes) are made
   explicit: filesystem state is passed as data, process results are inputs. -/

namespace Previs

/-- Build modes, from config.rs (enum BuildMode). -/
inductive BuildMode
  | clean
  | filtered
  | xbox
deriving DecidableEq, Repr, BEq

/-- Archive tools, from config.rs (enum ArchiveTool). Archive2 is the
append-incapable (extract-modify-repack) profile, BSArch the direct-append
profile. -/
inductive ArchiveTool
  | archive2
  | bsarch
deriving DecidableEq, Repr, BEq

/- ===== Workflow steps (src/workflow.rs) =====
   WorkflowStep is an enum with discriminants 1..8; we model a step by its
   number. -/

/-- WorkflowStep.is_clean_mode_only: CompressPSG (4) and BuildCDX (5). -/
def isCleanModeOnly (s : Nat) : Bool := s == 4 || s == 5

/-- WorkflowStep.from_number: valid step numbers are 1 through 8. -/
def fromNumber (n : Nat) : Option Nat :=
  if 1 ≤ n ∧ n ≤ 8 then some n else none

/-- WorkflowStep.next: from_number (number + 1). -/
def nextStep (s : Nat) : Option Nat := fromNumber (s + 1)

/-- A step is skipped by the run loop exactly when it is clean-mode-only and
the build mode is not Clean; otherwise it is eligible for execution. -/
def stepEligible (mode : BuildMode) (s : Nat) : Bool :=
  !(isCleanModeOnly s && !(mode == BuildMode.clean))

/-- The while-let loop of WorkflowExecutor.run_from_step (workflow.rs lines
126-148), with execute_step abstracted by the success oracle exec (exec s =
true means step s returned Ok). Returns the list of step numbers actually
executed, in execution order, and the overall success flag. The loop keeps
a current step, skips clean-mode-only steps when the mode is not Clean,
propagates a step error immediately, and otherwise advances with next. -/
def runLoop (mode : BuildMode) (exec : Nat → Bool) (s : Nat) : List Nat × Bool :=
  if h : 1 ≤ s ∧ s ≤ 8 then
    if isCleanModeOnly s && !(mode == BuildMode.clean) then
      runLoop mode exec (s + 1)
    else if exec s then
      let r := runLoop mode exec (s + 1)
      (s :: r.1, r.2)
    else ([s], false)
  else ([], true)
termination_by 9 - s
decreasing_by all_goals omega

/-- WorkflowExecutor.run_from_step for a start step k in 1..8 (the
interactive-only xPrevisPatch pre-prompt before the loop is not modelled;
it performs no step execution). -/
def run_from_step (mode : BuildMode) (exec : Nat → Bool) (k : Nat) :
    List Nat × Bool :=
  runLoop mode exec k

/-- The steps of k..8 that are eligible under the given build mode. -/
def eligSteps (mode : BuildMode) (k : Nat) : List Nat :=
  (List.range' k (9 - k)).filter (stepEligible mode)

/-- Cut a step list at the first failing step: keep successful steps until a
failure, keep the failing step itself, and drop everything after it. -/
def firstFailCut (exec : Nat → Bool) : List Nat → List Nat
  | [] => []
  | s :: rest => if exec s then s :: firstFailCut exec rest else [s]

/- ===== Directory emptiness (src/filesystem.rs) ===== -/

/-- Observable state of a directory for is_directory_empty: it may not exist,
exist but fail to be read (permission denied or I/O error), or be readable
with a list of entries. -/
inductive DirState
  | missing
  | unreadable
  | readable (entries : List String)
deriving DecidableEq, Repr

/-- Path.exists for a directory in the three observable states. -/
def dirExists : DirState → Bool
  | DirState.missing => false
  | DirState.unreadable => true
  | DirState.readable _ => true

/-- filesystem::is_directory_empty (filesystem.rs lines 200-217): a missing
directory is empty; a read failure is logged as a warning and reported as
empty; otherwise empty means the entry iterator yields nothing. -/
def is_directory_empty (d : DirState) : Bool :=
  if !dirExists d then
    true
  else
    match d with
    | DirState.readable entries => entries.isEmpty
    | _ => true

/-- The step 1 postcondition check (workflow.rs lines 355-357): bail with a
"no precombined meshes" error unless the output directory exists and is
non-empty. Also the step 6 postcondition (lines 589-591) has this shape. -/
def step1PostCheck (d : DirState) : Except String Unit :=
  if !dirExists d || is_directory_empty d then
    Except.error "No precombined meshes were generated"
  else
    Except.ok ()

/-- The directory precondition of check_and_clean_directory (workflow.rs lines
269-297) restricted to its first two returns: a missing directory passes, an
empty directory passes; the non-empty interactive/non-interactive handling is
abstracted as a rejection in non-interactive mode. -/
def checkAndCleanPre (d : DirState) : Except String Unit :=
  if !dirExists d then
    Except.ok ()
  else if is_directory_empty d then
    Except.ok ()
  else
    Except.error "Directory is not empty. Clean it or run interactively."

/- ===== Lemmas about the run loop ===== -/

theorem firstFailCut_sublist (exec : Nat → Bool) (l : List Nat) :
    List.Sublist (firstFailCut exec l) l := by
  induction l with
  | nil => simp [firstFailCut]
  | cons a t ih =>
    rw [firstFailCut]
    by_cases ha : exec a
    · rw [if_pos ha]
      exact List.Sublist.cons₂ a ih
    · rw [if_neg ha]
      exact List.Sublist.cons₂ a (List.nil_sublist t)

theorem firstFailCut_getLast (exec : Nat → Bool) :
    ∀ (l : List Nat) (s : Nat), s ∈ firstFailCut exec l → exec s = false →
      (firstFailCut exec l).getLast? = some s := by
  intro l
  induction l with
  | nil => simp [firstFailCut]
  | cons a t ih =>
    intro s hs hf
    by_cases ha : exec a
    · rw [firstFailCut, if_pos ha] at hs ⊢
      rcases List.mem_cons.mp hs with rfl | hmem
      · rw [ha] at hf
        cases hf
      · have hres := ih s hmem hf
        cases hfc : firstFailCut exec t with
        | nil =>
          rw [hfc] at hmem
          cases hmem
        | cons b u =>
          rw [hfc] at hres
          rw [List.getLast?_cons_cons]
          exact hres
    · rw [firstFailCut, if_neg ha] at hs ⊢
      rcases List.mem_cons.mp hs with rfl | hmem
      · rfl
      · cases hmem

theorem runLoop_characterization (mode : BuildMode) (exec : Nat → Bool) :
    ∀ (n k : Nat), 9 - k = n → 1 ≤ k →
      runLoop mode exec k
        = (firstFailCut exec (eligSteps mode k), (eligSteps mode k).all exec) := by
  intro n
  induction n with
  | zero =>
    intro k hk h1
    have h9 : ¬ (1 ≤ k ∧ k ≤ 8) := by omega
    rw [runLoop, dif_neg h9]
    have h0 : 9 - k = 0 := hk
    simp [eligSteps, h0, List.range', firstFailCut]
  | succ n ih =>
    intro k hk h1
    have hk8 : k ≤ 8 := by omega
    rw [runLoop, dif_pos ⟨h1, hk8⟩]
    have hrange : List.range' k (9 - k) = k :: List.range' (k + 1) (9 - (k + 1)) := by
      rw [show 9 - k = (9 - (k + 1)) + 1 from by omega, List.range'_succ]
    have helig : eligSteps mode k
        = if stepEligible mode k then k :: eligSteps mode (k + 1) else eligSteps mode (k + 1) := by
      unfold eligSteps
      rw [hrange, List.filter_cons]
    by_cases hskip : (isCleanModeOnly k && !(mode == BuildMode.clean)) = true
    · have hne : stepEligible mode k = false := by
        simp [stepEligible, hskip]
      rw [if_pos hskip, ih (k + 1) (by omega) (by omega), helig, hne]
      simp
    · have he : stepEligible mode k = true := by
        simp only [stepEligible]
        rw [Bool.not_eq_true] at hskip
        simp [hskip]
      rw [if_neg hskip, helig, he]
      simp only [if_true]
      by_cases hex : exec k
      · rw [if_pos hex, ih (k + 1) (by omega) (by omega)]
        rw [firstFailCut, if_pos hex]
        simp [hex]
      · rw [if_neg hex]
        rw [firstFailCut, if_neg hex]
        have hexf : exec k = false := by
          rw [Bool.not_eq_true] at hex
          exact hex
        simp [hexf]

/-- C1: for every start step k in 1..8, run_from_step executes exactly the
eligible steps of k..8 in order, cut at the first failing step (the whole
eligible list when every step succeeds): the trace is characterized as
firstFailCut of the eligible steps, is strictly ascending, contains only
steps between k and 8, contains no clean-mode-only step when the build mode
is not Clean (such steps are skipped rather than failed), and a failing step
is always the last executed step (all remaining steps are aborted). -/
theorem C1_run_from_step_trace (mode : BuildMode) (exec : Nat → Bool) (k : Nat)
    (h1 : 1 ≤ k) (h8 : k ≤ 8) :
    run_from_step mode exec k
      = (firstFailCut exec (eligSteps mode k), (eligSteps mode k).all exec)
    ∧ (run_from_step mode exec k).1.Pairwise (· < ·)
    ∧ (∀ s ∈ (run_from_step mode exec k).1, k ≤ s ∧ s ≤ 8)
    ∧ (mode ≠ BuildMode.clean →
        ∀ s ∈ (run_from_step mode exec k).1, isCleanModeOnly s = false)
    ∧ (∀ s ∈ (run_from_step mode exec k).1, exec s = false →
        ((run_from_step mode exec k).1).getLast? = some s) := by
  have hchar := runLoop_characterization mode exec (9 - k) k rfl h1
  have htrace : (run_from_step mode exec k).1 = firstFailCut exec (eligSteps mode k) := by
    rw [run_from_step, hchar]
  have hsub : List.Sublist (run_from_step mode exec k).1 (List.range' k (9 - k)) := by
    rw [htrace]
    exact (firstFailCut_sublist exec _).trans (List.filter_sublist _)
  have hmemElig : ∀ s ∈ (run_from_step mode exec k).1, s ∈ eligSteps mode k := by
    intro s hs
    rw [htrace] at hs
    exact (firstFailCut_sublist exec _).mem hs
  refine ⟨by rw [run_from_step, hchar], ?_, ?_, ?_, ?_⟩
  · exact List.Pairwise.sublist hsub (List.pairwise_lt_range' k (9 - k))
  · intro s hs
    have := hsub.mem hs
    rw [List.mem_range'_1] at this
    omega
  · intro hmode s hs
    have hm := hmemElig s hs
    unfold eligSteps at hm
    have he := (List.mem_filter.mp hm).2
    unfold stepEligible at he
    have hmc : (mode == BuildMode.clean) = false := by
      cases mode
      · exact absurd rfl hmode
      · rfl
      · rfl
    rw [hmc] at he
    simp at he
    exact he
  · intro s hs hf
    rw [htrace] at hs ⊢
    exact firstFailCut_getLast exec _ s hs hf

/-- Witness for C1 at the concrete resume scenario: mode Filtered, start
step 6, every step succeeding; the executed trace is exactly steps 6, 7, 8. -/
theorem C1_run_from_step_trace_witness :
    (1 ≤ 6 ∧ 6 ≤ 8)
    ∧ run_from_step BuildMode.filtered (fun _ => true) 6 = ([6, 7, 8], true) := by
  refine ⟨by decide, ?_⟩
  rw [(C1_run_from_step_trace BuildMode.filtered (fun _ => true) 6
    (by decide) (by decide)).1]
  decide

/- ===== C10: directory emptiness and the step postconditions ===== -/

/-- C10: is_directory_empty reports true for a missing directory, true for a
directory that exists but cannot be read, true for a readable directory with
no entries and false as soon as one entry is present; consequently the step 1
postcondition check fails with the no-meshes error (not a read error) on a
missing or unreadable output directory, while the directory-empty
precondition passes on a missing or unreadable directory. -/
theorem C10_is_directory_empty :
    is_directory_empty DirState.missing = true
    ∧ is_directory_empty DirState.unreadable = true
    ∧ is_directory_empty (DirState.readable []) = true
    ∧ (∀ (e : String) (es : List String),
        is_directory_empty (DirState.readable (e :: es)) = false)
    ∧ step1PostCheck DirState.missing
        = Except.error "No precombined meshes were generated"
    ∧ step1PostCheck DirState.unreadable
        = Except.error "No precombined meshes were generated"
    ∧ checkAndCleanPre DirState.missing = Except.ok ()
    ∧ checkAndCleanPre DirState.unreadable = Except.ok () := by
  refine ⟨rfl, rfl, rfl, ?_, rfl, rfl, rfl, rfl⟩
  intro e es
  rfl

/- ===== Tool invocation and log classification =====
   (src/tools/creation_kit.rs and src/tools/fo4edit.rs) -/

/-- Containment of pat as a contiguous segment of l, modelling the Rust
str::contains used on log contents. -/
def containsSeg (pat : List Char) : List Char → Bool
  | [] => pat.isEmpty
  | a :: t => pat.isPrefixOf (a :: t) || containsSeg pat t

/-- String containment: s.contains(pat) of the Rust source. -/
def strContains (s pat : String) : Bool := containsSeg pat.data s.data

/-- Fatal log pattern HANDLE_LIMIT_ERROR (creation_kit.rs line 127). -/
def HANDLE_LIMIT_ERROR : String := "OUT OF HANDLE ARRAY ENTRIES"

/-- Fatal log pattern PREVIS_ERROR, checked only by generate_previs
(creation_kit.rs line 160). -/
def PREVIS_ERROR : String := "visibility task did not complete"

/-- Fatal log pattern LOG_ERROR of fo4edit.rs (line 211). -/
def LOG_ERROR : String := "Error:"

/-- Expected success token LOG_SUCCESS of fo4edit.rs (line 187); its absence
is only a warning. -/
def LOG_SUCCESS : String := "Completed: No Errors."

/-- Errors a CreationKit invocation can propagate. -/
inductive CkError
  | deleteLogFailed
  | dllDisableFailed
  | launchFailed
  | logReadFailed
  | handleLimit
  | previsFailed
deriving DecidableEq, Repr

/-- Environment facts about one CreationKit invocation: whether a log path is
configured (with_log_file), whether the log file exists before the run and
whether deleting it succeeds, whether the DLL guard can disable the
interfering DLLs, whether the process can be started (directly or through
MO2), and whether the log file can be read afterwards. -/
structure CkEnv where
  logConfigured : Bool
  logExistsBefore : Bool
  logDeleteOk : Bool
  dllDisableOk : Bool
  launchOk : Bool
  logReadOk : Bool
deriving DecidableEq, Repr

/-- Observable result of the CreationKit subordinate process: the exit status
(success flag plus raw code as reported by the OS) and the state of the log
file after the run (none when no log file was created). -/
structure CkRun where
  exitOk : Bool
  exitCode : Int
  logAfter : Option String
deriving DecidableEq, Repr

/-- CreationKitRunner::check_log_for_errors (creation_kit.rs lines 637-661):
with no log configured or no log file present it warns and returns Ok; with a
readable log it fails exactly when the handle-limit pattern occurs. -/
def ck_check_log_for_errors (logConfigured logReadOk : Bool)
    (logAfter : Option String) : Except CkError Unit :=
  if !logConfigured then
    Except.ok ()
  else
    match logAfter with
    | none => Except.ok ()
    | some content =>
      if !logReadOk then Except.error CkError.logReadFailed
      else if strContains content HANDLE_LIMIT_ERROR then
        Except.error CkError.handleLimit
      else Except.ok ()

/-- CreationKitRunner::run_with_dll_guard (creation_kit.rs lines 495-567):
delete a pre-existing log (fatal on failure), enter the DLL guard, launch the
process, classify from the log, and treat a non-success exit status as a
warning only — the exit status fields of the run are never consulted for the
returned result. -/
def run_with_dll_guard (env : CkEnv) (run : CkRun) : Except CkError Unit :=
  if env.logConfigured && env.logExistsBefore && !env.logDeleteOk then
    Except.error CkError.deleteLogFailed
  else if !env.dllDisableOk then
    Except.error CkError.dllDisableFailed
  else if !env.launchOk then
    Except.error CkError.launchFailed
  else
    match ck_check_log_for_errors env.logConfigured env.logReadOk run.logAfter with
    | Except.error e => Except.error e
    | Except.ok () => Except.ok ()

/-- CreationKitRunner::generate_previs (creation_kit.rs lines 414-437): run
with the guard, then search the log for the previs failure pattern; when the
log file is absent the extra check is silently skipped. -/
def ck_generate_previs (env : CkEnv) (run : CkRun) : Except CkError Unit :=
  match run_with_dll_guard env run with
  | Except.error e => Except.error e
  | Except.ok () =>
    if env.logConfigured then
      match run.logAfter with
      | some content =>
        if !env.logReadOk then Except.error CkError.logReadFailed
        else if strContains content PREVIS_ERROR then
          Except.error CkError.previsFailed
        else Except.ok ()
      | none => Except.ok ()
    else Except.ok ()

/-- Errors an FO4Edit script invocation can propagate. -/
inductive Fo4Error
  | writePluginsFailed
  | deleteLogFailed
  | launchFailed
  | logMissing
  | logReadFailed
  | logErrorPattern
deriving DecidableEq, Repr

/-- Environment facts about one FO4Edit script invocation (run_script in
fo4edit.rs lines 459-557). The keystroke and window-closing automation and
the bounded wait for the log file are warn-only or absorbed into launchOk. -/
structure Fo4Env where
  writePluginsOk : Bool
  logExistsBefore : Bool
  logDeleteOk : Bool
  launchOk : Bool
  logReadOk : Bool
deriving DecidableEq, Repr

/-- Observable result of the FO4Edit subordinate process. The exit code is
recorded but run_script never consults it (child.wait is only logged). -/
structure Fo4Run where
  exitCode : Int
  logAfter : Option String
deriving DecidableEq, Repr

/-- FO4EditRunner::check_log_for_errors (fo4edit.rs lines 1059-1085): unlike
the CreationKit variant, a missing log file is an error; a readable log fails
exactly when the generic error pattern occurs; a missing success token only
warns. -/
def fo4_check_log_for_errors (logReadOk : Bool) (logAfter : Option String) :
    Except Fo4Error Unit :=
  match logAfter with
  | none => Except.error Fo4Error.logMissing
  | some content =>
    if !logReadOk then Except.error Fo4Error.logReadFailed
    else if strContains content LOG_ERROR then Except.error Fo4Error.logErrorPattern
    else Except.ok ()

/-- FO4EditRunner::run_script (fo4edit.rs lines 459-557): write Plugins.txt,
delete a pre-existing log (fatal on failure), launch, then classify purely
from the log file. -/
def fo4_run_script (env : Fo4Env) (run : Fo4Run) : Except Fo4Error Unit :=
  if !env.writePluginsOk then
    Except.error Fo4Error.writePluginsFailed
  else if env.logExistsBefore && !env.logDeleteOk then
    Except.error Fo4Error.deleteLogFailed
  else if !env.launchOk then
    Except.error Fo4Error.launchFailed
  else
    fo4_check_log_for_errors env.logReadOk run.logAfter

/-- C2: for both log-classified tool runners the subordinate process exit
status never influences the returned result; a run with a non-success exit
status but a log free of the registered fatal pattern succeeds, and a run
with exit code 0 whose log contains the registered fatal pattern returns the
fatal log-pattern error. -/
theorem C2_exit_code_never_decides (env : CkEnv) (fenv : Fo4Env)
    (c c2 : Int) (ok ok2 : Bool) (log : Option String) (content fcontent : String)
    (h1 : (env.logConfigured && env.logExistsBefore && !env.logDeleteOk) = false)
    (h2 : env.dllDisableOk = true) (h3 : env.launchOk = true)
    (h4 : env.logReadOk = true) (hc : env.logConfigured = true)
    (f1 : fenv.writePluginsOk = true)
    (f2 : (fenv.logExistsBefore && !fenv.logDeleteOk) = false)
    (f3 : fenv.launchOk = true) (f4 : fenv.logReadOk = true) :
    (run_with_dll_guard env ⟨ok, c, log⟩ = run_with_dll_guard env ⟨ok2, c2, log⟩)
    ∧ (fo4_run_script fenv ⟨c, log⟩ = fo4_run_script fenv ⟨c2, log⟩)
    ∧ (strContains content HANDLE_LIMIT_ERROR = false →
        run_with_dll_guard env ⟨false, c, some content⟩ = Except.ok ())
    ∧ (strContains content HANDLE_LIMIT_ERROR = true →
        run_with_dll_guard env ⟨true, 0, some content⟩
          = Except.error CkError.handleLimit)
    ∧ (strContains fcontent LOG_ERROR = false →
        fo4_run_script fenv ⟨c, some fcontent⟩ = Except.ok ())
    ∧ (strContains fcontent LOG_ERROR = true →
        fo4_run_script fenv ⟨0, some fcontent⟩
          = Except.error Fo4Error.logErrorPattern) := by
  refine ⟨rfl, rfl, ?_, ?_, ?_, ?_⟩
  · intro hclean
    cases hbe : env.logExistsBefore <;> cases hdo : env.logDeleteOk <;>
      simp_all [run_with_dll_guard, ck_check_log_for_errors]
  · intro hdirty
    cases hbe : env.logExistsBefore <;> cases hdo : env.logDeleteOk <;>
      simp_all [run_with_dll_guard, ck_check_log_for_errors]
  · intro hclean
    cases hbe : fenv.logExistsBefore <;> cases hdo : fenv.logDeleteOk <;>
      simp_all [fo4_run_script, fo4_check_log_for_errors]
  · intro hdirty
    cases hbe : fenv.logExistsBefore <;> cases hdo : fenv.logDeleteOk <;>
      simp_all [fo4_run_script, fo4_check_log_for_errors]

/-- Witness for C2 at a concrete invocation: an all-healthy environment, a
non-zero exit with a clean log succeeding, and a zero exit with the fatal
pattern in the log failing. -/
theorem C2_exit_code_never_decides_witness :
    ((true && true && !true) = false)
    ∧ run_with_dll_guard ⟨true, true, true, true, true, true⟩
        ⟨false, 1, some "done"⟩ = Except.ok ()
    ∧ run_with_dll_guard ⟨true, true, true, true, true, true⟩
        ⟨true, 0, some "OUT OF HANDLE ARRAY ENTRIES hit"⟩
          = Except.error CkError.handleLimit
    ∧ fo4_run_script ⟨true, true, true, true, true⟩
        ⟨0, some "Error: bad record"⟩ = Except.error Fo4Error.logErrorPattern := by
  have h := C2_exit_code_never_decides ⟨true, true, true, true, true, true⟩
    ⟨true, true, true, true, true⟩ 1 0 false true (some "done")
    "done" "Error: bad record" rfl rfl rfl rfl rfl rfl rfl rfl rfl
  exact ⟨rfl, h.2.2.1 (by decide),
    (C2_exit_code_never_decides ⟨true, true, true, true, true, true⟩
      ⟨true, true, true, true, true⟩ 1 0 false true (some "done")
      "OUT OF HANDLE ARRAY ENTRIES hit" "x" rfl rfl rfl rfl rfl rfl rfl rfl
      rfl).2.2.2.1 (by decide),
    h.2.2.2.2.2 (by decide)⟩

/-- Counterexample to C8 as stated: an FO4Edit merge-script run is not the
visibility-generation failure-detection step, yet with the log file absent
after the run it returns a fatal log-missing error rather than degrading to
a warning. -/
theorem C8_counterexample_fo4edit_missing_log :
    fo4_run_script ⟨true, false, true, true, true⟩ ⟨0, none⟩
      = Except.error Fo4Error.logMissing := rfl

/-- C8 amended: every tool run deletes a pre-existing log file before launch
and a failed deletion is fatal, for both runners; afterwards a missing log is
a warning and never fatal for CreationKit runs — including visibility
generation, whose extra fatal-pattern check is silently skipped when the log
is absent — while FO4Edit script runs require the log and treat its absence
as fatal. -/
theorem C8_log_lifecycle (env : CkEnv) (fenv : Fo4Env) (run : CkRun)
    (frun : Fo4Run) (ok : Bool) (c : Int) :
    (env.logConfigured = true → env.logExistsBefore = true →
      env.logDeleteOk = false →
      run_with_dll_guard env run = Except.error CkError.deleteLogFailed)
    ∧ (fenv.writePluginsOk = true → fenv.logExistsBefore = true →
        fenv.logDeleteOk = false →
        fo4_run_script fenv frun = Except.error Fo4Error.deleteLogFailed)
    ∧ ((env.logConfigured && env.logExistsBefore && !env.logDeleteOk) = false →
        env.dllDisableOk = true → env.launchOk = true →
        run_with_dll_guard env ⟨ok, c, none⟩ = Except.ok ())
    ∧ ((env.logConfigured && env.logExistsBefore && !env.logDeleteOk) = false →
        env.dllDisableOk = true → env.launchOk = true →
        ck_generate_previs env ⟨ok, c, none⟩ = Except.ok ())
    ∧ (fenv.writePluginsOk = true →
        (fenv.logExistsBefore && !fenv.logDeleteOk) = false →
        fenv.launchOk = true →
        fo4_run_script fenv ⟨c, none⟩ = Except.error Fo4Error.logMissing) := by
  refine ⟨?_, ?_, ?_, ?_, ?_⟩
  · intro ha hb hd
    simp [run_with_dll_guard, ha, hb, hd]
  · intro ha hb hd
    simp [fo4_run_script, ha, hb, hd]
  · intro h1 h2 h3
    cases hcfg : env.logConfigured <;> cases hbe : env.logExistsBefore <;>
      cases hdo : env.logDeleteOk <;>
        simp_all [run_with_dll_guard, ck_check_log_for_errors]
  · intro h1 h2 h3
    cases hcfg : env.logConfigured <;> cases hbe : env.logExistsBefore <;>
      cases hdo : env.logDeleteOk <;>
        simp_all [ck_generate_previs, run_with_dll_guard, ck_check_log_for_errors]
  · intro f1 f2 f3
    cases hbe : fenv.logExistsBefore <;> cases hdo : fenv.logDeleteOk <;>
      simp_all [fo4_run_script, fo4_check_log_for_errors]

/-- Witness for C8 at concrete runs: a failed log deletion aborts the
CreationKit run; a missing log after a previs-generation run still succeeds;
a missing log after an FO4Edit run is fatal. -/
theorem C8_log_lifecycle_witness :
    run_with_dll_guard ⟨true, true, false, true, true, true⟩ ⟨true, 0, none⟩
      = Except.error CkError.deleteLogFailed
    ∧ ck_generate_previs ⟨true, false, true, true, true, true⟩ ⟨false, 1, none⟩
        = Except.ok ()
    ∧ fo4_run_script ⟨true, false, true, true, true⟩ ⟨0, none⟩
        = Except.error Fo4Error.logMissing := by
  have h1 := C8_log_lifecycle ⟨true, true, false, true, true, true⟩
    ⟨true, false, true, true, true⟩ ⟨true, 0, none⟩ ⟨0, none⟩ true 0
  have h2 := C8_log_lifecycle ⟨true, false, true, true, true, true⟩
    ⟨true, false, true, true, true⟩ ⟨true, 0, none⟩ ⟨0, none⟩ false 1
  exact ⟨h1.1 rfl rfl rfl, h2.2.2.2.1 rfl rfl rfl, h1.2.2.2.2 rfl rfl rfl⟩

/- ===== DLL resource guard (src/tools/dll_manager.rs) =====
   The Fallout 4 directory contents are modelled as the list of file names
   present; a rename replaces one name by another. -/

/-- Replace every occurrence of pat in the character list, modelling the Rust
str::replace; the fuel argument (instantiated with the list length) only
makes the recursion structural, since every step consumes at least one
character. An empty pattern is never replaced (the source only uses the
fixed non-empty disabled-marker suffix). -/
def replaceChars (pat rep : List Char) : Nat → List Char → List Char
  | _, [] => []
  | 0, l => l
  | Nat.succ fuel, a :: t =>
    if pat.isPrefixOf (a :: t) && !pat.isEmpty then
      rep ++ replaceChars pat rep fuel (t.drop (pat.length - 1))
    else a :: replaceChars pat rep fuel t

/-- String replacement, modelling str::replace of the Rust source. -/
def strReplace (s pat rep : String) : String :=
  String.mk (replaceChars pat.data rep.data s.data.length s.data)

/-- INTERFERING_DLLS (dll_manager.rs lines 60-67). -/
def INTERFERING_DLLS : List String :=
  ["d3d11.dll", "d3d10.dll", "d3d9.dll", "dxgi.dll", "enbimgui.dll",
   "d3dcompiler_46e.dll"]

/-- DISABLED_SUFFIX (dll_manager.rs line 70). -/
def DISABLED_SUFFIX : String := "-PJMdisabled"

/-- State of a DllManager: the directory contents and the recorded disabled
names. -/
structure DllManagerS where
  files : List String
  disabled : List String
deriving DecidableEq, Repr

/-- Rename a file in the directory contents. -/
def renameFile (files : List String) (old new : String) : List String :=
  new :: files.erase old

/-- DllManager::scan: interfering DLLs present in the directory. -/
def scanDlls (files : List String) : List String :=
  INTERFERING_DLLS.filter (fun n => files.contains n)

/-- One iteration of the disable loop: rename the DLL by appending the
disabled suffix (with_extension on a single-extension name appends the
suffix), record the disabled name, count it. -/
def disableOne (st : DllManagerS × Nat) (name : String) : DllManagerS × Nat :=
  (⟨renameFile st.1.files name (name ++ DISABLED_SUFFIX),
    st.1.disabled ++ [name ++ DISABLED_SUFFIX]⟩,
   st.2 + 1)

/-- DllManager::disable_dlls (lines 193-231): rename every interfering DLL
found by scan, recording each disabled name; returns the new state and the
count of disabled DLLs. -/
def disable_dlls (s : DllManagerS) : DllManagerS × Nat :=
  (scanDlls s.files).foldl disableOne (s, 0)

/-- The restore loop of DllManager::restore_dlls (lines 286-316): a recorded
name still present is renamed back to its original (the suffix removed with
replace) when the rename succeeds — renameOk models the fs::rename outcome —
while a failed rename aborts the loop immediately through the question-mark
operator, so the remaining recorded names receive no attempt; a recorded
name that is absent is skipped with a warning. Returns the directory
contents after the renames performed, the restored and warned counts, and
the name whose rename failed when the loop was aborted. -/
def restoreLoop (renameOk : String → Bool) :
    List String → List String → Nat → Nat →
      (List String × Nat × Nat) × Option String
  | [], files, r, w => ((files, r, w), none)
  | d :: rest, files, r, w =>
    if files.contains d then
      if renameOk d then
        restoreLoop renameOk rest
          (renameFile files d (strReplace d DISABLED_SUFFIX "")) (r + 1) w
      else ((files, r, w), some d)
    else restoreLoop renameOk rest files r (w + 1)

/-- DllManager::restore_dlls (lines 279-320): with nothing recorded return
immediately; otherwise run the restore loop; only when it completes is the
record cleared — a rename failure propagates out before the clearing
statement on line 318, leaving the record as it was. Returns the new state,
the restored and warned counts, and the failed name if any. -/
def restore_dlls (renameOk : String → Bool) (s : DllManagerS) :
    DllManagerS × Nat × Nat × Option String :=
  if s.disabled.isEmpty then (s, 0, 0, none)
  else
    match restoreLoop renameOk s.disabled s.files 0 0 with
    | ((files, r, w), none) => (⟨files, []⟩, r, w, none)
    | ((files, r, w), some d) => (⟨files, s.disabled⟩, r, w, some d)

/-- One DllGuard scope (DllGuard::new, the guarded call, then Drop): disable,
run the body — which may change the directory contents and succeed or fail —
then restore unconditionally; a restore error is only warned about in Drop
(lines 394-406), never turned into a failure of the scope. Returns the final
manager state, the body outcome passed through unchanged, the number of
disabled resources, the restored and warned counts, and the restore failure
if any. -/
def dllGuardScope {ε α : Type} (renameOk : String → Bool) (s0 : DllManagerS)
    (body : List String → List String × Except ε α) :
    DllManagerS × Except ε α × Nat × Nat × Nat × Option String :=
  ((restore_dlls renameOk ⟨(body (disable_dlls s0).1.files).1,
      (disable_dlls s0).1.disabled⟩).1,
   (body (disable_dlls s0).1.files).2,
   (disable_dlls s0).2,
   (restore_dlls renameOk ⟨(body (disable_dlls s0).1.files).1,
      (disable_dlls s0).1.disabled⟩).2)

theorem disable_foldl_spec (names : List String) :
    ∀ (s : DllManagerS) (n : Nat),
      ((names.foldl disableOne (s, n)).1.disabled
          = s.disabled ++ names.map (fun x => x ++ DISABLED_SUFFIX))
      ∧ (names.foldl disableOne (s, n)).2 = n + names.length := by
  induction names with
  | nil =>
    intro s n
    simp
  | cons a t ih =>
    intro s n
    rw [List.foldl_cons, disableOne]
    have ht := ih ⟨renameFile s.files a (a ++ DISABLED_SUFFIX),
      s.disabled ++ [a ++ DISABLED_SUFFIX]⟩ (n + 1)
    refine ⟨?_, ?_⟩
    · rw [ht.1]
      simp
    · rw [ht.2]
      simp
      omega

theorem restoreLoop_all_ok (renameOk : String → Bool)
    (hren : ∀ d, renameOk d = true) :
    ∀ (ds files : List String) (r w : Nat),
      ((restoreLoop renameOk ds files r w).1.2.1
          + (restoreLoop renameOk ds files r w).1.2.2 = r + w + ds.length)
      ∧ (restoreLoop renameOk ds files r w).2 = none := by
  intro ds
  induction ds with
  | nil =>
    intro files r w
    simp [restoreLoop]
  | cons d t ih =>
    intro files r w
    simp only [restoreLoop]
    by_cases hc : files.contains d
    · rw [if_pos hc, if_pos (hren d)]
      have ht := ih (renameFile files d (strReplace d DISABLED_SUFFIX ""))
        (r + 1) w
      refine ⟨?_, ht.2⟩
      rw [ht.1]
      simp
      omega
    · rw [if_neg hc]
      have ht := ih files r (w + 1)
      refine ⟨?_, ht.2⟩
      rw [ht.1]
      simp
      omega

theorem restore_dlls_all_ok (renameOk : String → Bool)
    (hren : ∀ d, renameOk d = true) (s : DllManagerS) :
    ((restore_dlls renameOk s).2.1 + (restore_dlls renameOk s).2.2.1
        = s.disabled.length)
    ∧ (restore_dlls renameOk s).1.disabled = []
    ∧ (restore_dlls renameOk s).2.2.2 = none := by
  rw [restore_dlls]
  by_cases h : s.disabled.isEmpty
  · rw [if_pos h]
    have he : s.disabled = [] := List.isEmpty_iff.mp h
    simp [he]
  · rw [if_neg h]
    have hloop := restoreLoop_all_ok renameOk hren s.disabled s.files 0 0
    cases hres : restoreLoop renameOk s.disabled s.files 0 0 with
    | mk a opt =>
      obtain ⟨files, r, w⟩ := a
      rw [hres] at hloop
      cases opt with
      | none =>
        simp only at hloop ⊢
        refine ⟨by simpa using hloop.1, by trivial, by trivial⟩
      | some d =>
        cases hloop.2

theorem disable_dlls_record (s : DllManagerS) (h0 : s.disabled = []) :
    (disable_dlls s).1.disabled
      = (scanDlls s.files).map (fun x => x ++ DISABLED_SUFFIX)
    ∧ (disable_dlls s).2 = (scanDlls s.files).length := by
  have h := disable_foldl_spec (scanDlls s.files) s 0
  refine ⟨?_, ?_⟩
  · rw [disable_dlls, h.1, h0]
    simp
  · rw [disable_dlls, h.2]
    simp

/-- Concrete directory state for the C7 restore-failure evaluation. -/
def c7FailState : DllManagerS := ⟨["d3d11.dll", "dxgi.dll"], []⟩

/-- Body for the C7 restore-failure evaluation: the guarded call changes
nothing and returns normally. -/
def c7FailBody : List String → List String × Except String Unit :=
  fun fs => (fs, Except.ok ())

/-- Rename outcome for the C7 restore-failure evaluation: renaming the first
recorded DLL back fails (the file is locked, say); every other rename
succeeds. -/
def c7FailRenameOk : String → Bool :=
  fun d => !(d == "d3d11.dll-PJMdisabled")

/-- Counterexample to C7 as stated: a scope that disables two DLLs but whose
first restore rename fails aborts the restore loop through the question-mark
operator after a single attempt — the second recorded DLL, although present,
is never attempted and stays disabled — and returns before the
record-clearing statement, so the recorded set is not emptied; only the Drop
warning keeps the scope exit itself from failing. -/
theorem C7_counterexample_restore_rename_failure :
    (disable_dlls c7FailState).2 = 2
    ∧ dllGuardScope c7FailRenameOk c7FailState c7FailBody
      = (⟨["dxgi.dll-PJMdisabled", "d3d11.dll-PJMdisabled"],
          ["d3d11.dll-PJMdisabled", "dxgi.dll-PJMdisabled"]⟩,
         Except.ok (), 2, 0, 0, some "d3d11.dll-PJMdisabled")
    ∧ (dllGuardScope c7FailRenameOk c7FailState c7FailBody).1.disabled ≠ [] := by
  refine ⟨rfl, rfl, by decide⟩

/-- C7 amended: a guard scope entered with an empty record that disables N
resources, provided every rename performed at restoration time succeeds,
performs exactly N restoration attempts when the scope ends (each attempt
either restores or warns, so restored plus warned equals N), empties the
recorded set and reports no restore failure — whether the body returned
normally or with an error; independently of rename outcomes the body result
is passed through unchanged, since Drop only warns about restore problems;
and a recorded resource absent at restoration time is skipped with a
warning, leaving the record empty, never failing the scope exit. -/
theorem C7_guard_scope {ε α : Type} (renameOk : String → Bool)
    (s0 : DllManagerS) (body : List String → List String × Except ε α)
    (h0 : s0.disabled = []) :
    ((∀ d, renameOk d = true) →
      ((dllGuardScope renameOk s0 body).2.2.2.1
          + (dllGuardScope renameOk s0 body).2.2.2.2.1
          = (dllGuardScope renameOk s0 body).2.2.1)
      ∧ (dllGuardScope renameOk s0 body).1.disabled = []
      ∧ (dllGuardScope renameOk s0 body).2.2.2.2.2 = none)
    ∧ (dllGuardScope renameOk s0 body).2.1 = (body (disable_dlls s0).1.files).2
    ∧ (∀ (d : String) (files : List String), files.contains d = false →
        restore_dlls renameOk ⟨files, [d]⟩ = (⟨files, []⟩, 0, 1, none)) := by
  have hrec := disable_dlls_record s0 h0
  refine ⟨?_, rfl, ?_⟩
  · intro hren
    have hall := restore_dlls_all_ok renameOk hren
      ⟨(body (disable_dlls s0).1.files).1, (disable_dlls s0).1.disabled⟩
    refine ⟨?_, hall.2.1, hall.2.2⟩
    show (restore_dlls renameOk ⟨(body (disable_dlls s0).1.files).1,
        (disable_dlls s0).1.disabled⟩).2.1
      + (restore_dlls renameOk ⟨(body (disable_dlls s0).1.files).1,
        (disable_dlls s0).1.disabled⟩).2.2.1
      = (disable_dlls s0).2
    rw [hall.1]
    show (disable_dlls s0).1.disabled.length = (disable_dlls s0).2
    rw [hrec.1, hrec.2]
    simp
  · intro d files hcf
    rw [restore_dlls, if_neg (by simp)]
    rw [show restoreLoop renameOk [d] files 0 0 = ((files, 0, 1), none) from by
      have hmem : d ∉ files := by simpa using hcf
      simp [restoreLoop, hmem]]

/-- Concrete directory state for the C7 witness. -/
def c7State : DllManagerS := ⟨["d3d11.dll", "dxgi.dll", "other.txt"], []⟩

/-- Concrete guarded body for the C7 witness: the subordinate process deletes
the disabled dxgi file and the call fails. -/
def c7Body : List String → List String × Except String Unit :=
  fun fs => (fs.erase "dxgi.dll-PJMdisabled", Except.error "ck crashed")

/-- Witness for the amended C7 at a concrete scope with all renames
succeeding: two DLLs are disabled, one restore succeeds, the other is only
warned about, the record ends empty, no restore failure is reported and the
body error is passed through. -/
theorem C7_guard_scope_witness :
    c7State.disabled = []
    ∧ (dllGuardScope (fun _ => true) c7State c7Body).1.disabled = []
    ∧ dllGuardScope (fun _ => true) c7State c7Body
        = (⟨["d3d11.dll", "other.txt"], []⟩, Except.error "ck crashed",
           2, 1, 1, none) := by
  refine ⟨rfl, ((C7_guard_scope (fun _ => true) c7State c7Body rfl).1
    (fun d => rfl)).2.1, ?_⟩
  rfl

/- ===== Abstract filesystem for the archive backend and overlay collector
   (src/tools/archive.rs and src/mo2_helper.rs) =====
   Paths are component lists; the filesystem is an association list from
   paths to entries, looked up at the first binding. The external archiver
   invocations (Archive2 pack/extract, BSArch pack) are modelled by their
   documented effect, gated on the success flag toolOk that models
   output.status.success(); every filesystem mutation performed by the
   Rust code is also recorded as an event so that operation order is
   provable. -/

/-- A filesystem path as a list of components. A literal ".." component
models std::path::Component::ParentDir. -/
abbrev FPath := List String

/-- A filesystem entry: a directory, a plain file with contents, or a BA2
archive file holding packed entries (path relative to the packed root, and
contents). -/
inductive FEntry
  | dir
  | file (content : String)
  | archiveData (entries : List (FPath × String))
deriving DecidableEq, Repr

/-- A filesystem. -/
abbrev FS := List (FPath × FEntry)

/-- Look up the entry bound to a path. -/
def lookupFS : FS → FPath → Option FEntry
  | [], _ => none
  | (q, e) :: rest, p => if q = p then some e else lookupFS rest p

/-- Path.exists. -/
def existsFS (fs : FS) (p : FPath) : Bool := (lookupFS fs p).isSome

/-- Path.is_dir. -/
def isDirFS (fs : FS) (p : FPath) : Bool :=
  match lookupFS fs p with
  | some FEntry.dir => true
  | _ => false

/-- Bind a path to an entry, replacing any previous binding. -/
def setEntry (fs : FS) (p : FPath) (e : FEntry) : FS :=
  (p, e) :: fs.filter (fun q => !(decide (q.1 = p)))

/-- Whether base is a prefix of p, that is, p is base itself or inside the
directory base. -/
def underPath : FPath → FPath → Bool
  | [], _ => true
  | _ :: _, [] => false
  | a :: as, b :: bs => decide (a = b) && underPath as bs

/-- fs::remove_dir_all: fails when the path does not exist, otherwise removes
the directory and everything under it. -/
def removeDirAll (fs : FS) (p : FPath) : Option FS :=
  if existsFS fs p then some (fs.filter (fun q => !(underPath p q.1)))
  else none

/-- fs::remove_file: fails when the path is not a file. -/
def removeFile (fs : FS) (p : FPath) : Option FS :=
  match lookupFS fs p with
  | some FEntry.dir => none
  | some _ => some (fs.filter (fun q => !(decide (q.1 = p))))
  | none => none

/-- The nonempty prefixes of a path, shortest first. -/
def pathPrefixes : FPath → List FPath
  | [] => []
  | a :: rest => [a] :: (pathPrefixes rest).map (fun q => a :: q)

/-- fs::create_dir_all: bind every missing prefix of the path to a
directory. -/
def createDirAll (fs : FS) (p : FPath) : FS :=
  (pathPrefixes p).foldl
    (fun acc q => if existsFS acc q then acc else (q, FEntry.dir) :: acc) fs

/-- The files strictly under a directory, with their paths relative to it, in
binding order; this models the recursive directory walk used when packing or
copying. -/
def filesUnder (fs : FS) (base : FPath) : List (FPath × String) :=
  fs.filterMap (fun q =>
    match q.2 with
    | FEntry.file c =>
      if underPath base q.1 && !(decide (q.1 = base)) then
        some (q.1.drop base.length, c)
      else none
    | _ => none)

/-- Write one file at dest ++ rel, creating its parent directories; existing
files at the destination are overwritten (fs::copy semantics). -/
def writeEntry (fs : FS) (dest : FPath) (rel : FPath) (c : String) : FS :=
  setEntry (createDirAll fs (dest ++ rel.dropLast)) (dest ++ rel) (FEntry.file c)

/-- The Archive2 create invocation (archive2_create, archive.rs lines
785-818): on tool success the archive path holds the files packed from the
source directory. -/
def archive2_create (toolOk : Bool) (fs : FS) (sourceDir archivePath : FPath) :
    Option FS :=
  if toolOk then
    some (setEntry fs archivePath (FEntry.archiveData (filesUnder fs sourceDir)))
  else none

/-- The Archive2 extract invocation (archive2_extract, archive.rs lines
839-868): on tool success every packed entry is written below the
destination directory. -/
def archive2_extract (toolOk : Bool) (fs : FS) (archivePath destDir : FPath) :
    Option FS :=
  if toolOk then
    match lookupFS fs archivePath with
    | some (FEntry.archiveData entries) =>
      some (entries.foldl (fun acc e => writeEntry acc destDir e.1 e.2) fs)
    | _ => none
  else none

/-- The BSArch pack invocation (bsarch_pack, archive.rs lines 894-923):
creates the archive when absent and appends to it when present, appended
files overwriting same-name packed entries. -/
def bsarch_pack (toolOk : Bool) (fs : FS) (sourceDir archivePath : FPath) :
    Option FS :=
  if toolOk then
    some (setEntry fs archivePath (FEntry.archiveData
      (match lookupFS fs archivePath with
       | some (FEntry.archiveData old) =>
         filesUnder fs sourceDir
           ++ old.filter (fun e =>
                !((filesUnder fs sourceDir).any (fun n => decide (n.1 = e.1))))
       | _ => filesUnder fs sourceDir)))
  else none

/-- ArchiveManager::copy_dir_recursive (archive.rs lines 945-964): create the
destination if missing, then copy every file under src into dst preserving
relative paths, overwriting on name collision. -/
def copy_dir_recursive (fs : FS) (src dst : FPath) : FS :=
  (filesUnder fs src).foldl (fun acc e => writeEntry acc dst e.1 e.2)
    (if existsFS fs dst then fs else createDirAll fs dst)

/-- Events recording every filesystem mutation the archive layer performs. -/
inductive AEvent
  | removeDirAllEv (p : FPath)
  | createDirAllEv (p : FPath)
  | extractEv (archive dest : FPath)
  | copyDirEv (src dst : FPath)
  | copyFileEv (src dst : FPath)
  | removeFileEv (p : FPath)
  | archive2CreateEv (src archive : FPath)
  | bsarchPackEv (src archive : FPath)
deriving DecidableEq, Repr

/-- Errors of the archive layer. -/
inductive AErr
  | archiveMissing
  | toolFailed
  | removeFailed (p : FPath)
  | mo2StagingMissing
  | noFilesFound
  | pathTraversal
deriving DecidableEq, Repr

/-- Outcome of an archive-manager operation: the final filesystem and the
trace of performed effects, with the error when one was propagated. -/
inductive ARes
  | ok (fs : FS) (tr : List AEvent)
  | err (e : AErr) (fs : FS) (tr : List AEvent)
deriving DecidableEq, Repr

/-- Sequencing that mirrors the question-mark operator: an error short
circuits, carrying the filesystem and trace at the failure point. -/
def ARes.andThen (r : ARes) (f : FS → List AEvent → ARes) : ARes :=
  match r with
  | ARes.ok fs tr => f fs tr
  | ARes.err e fs tr => ARes.err e fs tr

/-- ArchiveManager::create_archive (archive.rs lines 291-318): one pack
invocation; with Archive2 the source directory is then deleted, with BSArch
it is kept. -/
def create_archive (tool : ArchiveTool) (toolOk : Bool) (fallout4Dir : FPath)
    (sourceDir : FPath) (archiveName : String) (fs : FS) : ARes :=
  let archivePath := fallout4Dir ++ ["Data"] ++ [archiveName]
  match tool with
  | ArchiveTool.archive2 =>
    match archive2_create toolOk fs sourceDir archivePath with
    | none => ARes.err AErr.toolFailed fs []
    | some fs1 =>
      match removeDirAll fs1 sourceDir with
      | none => ARes.err (AErr.removeFailed sourceDir) fs1
          [AEvent.archive2CreateEv sourceDir archivePath]
      | some fs2 => ARes.ok fs2
          [AEvent.archive2CreateEv sourceDir archivePath,
           AEvent.removeDirAllEv sourceDir]
  | ArchiveTool.bsarch =>
    match bsarch_pack toolOk fs sourceDir archivePath with
    | none => ARes.err AErr.toolFailed fs []
    | some fs1 => ARes.ok fs1 [AEvent.bsarchPackEv sourceDir archivePath]

/-- ArchiveManager::add_to_archive (archive.rs lines 556-619): reject a
missing archive before any effect; BSArch appends with one pack call; the
Archive2 profile prepares a fresh scratch directory, then extracts the
archive into it, copies the source files over it, deletes the old archive,
recreates it from the merged scratch directory (these four inside a closure
whose error is propagated only after the scratch cleanup), always removes
the scratch directory (ignoring cleanup errors), and on success finally
deletes the source directory. -/
def add_to_archive (tool : ArchiveTool) (toolOk : Bool) (fallout4Dir : FPath)
    (sourceDir : FPath) (archiveName : String) (fs : FS) : ARes :=
  let dataDir := fallout4Dir ++ ["Data"]
  let archivePath := dataDir ++ [archiveName]
  if !(existsFS fs archivePath) then
    ARes.err AErr.archiveMissing fs []
  else
    match tool with
    | ArchiveTool.bsarch =>
      match bsarch_pack toolOk fs sourceDir archivePath with
      | none => ARes.err AErr.toolFailed fs []
      | some fs1 => ARes.ok fs1 [AEvent.bsarchPackEv sourceDir archivePath]
    | ArchiveTool.archive2 =>
      let tempExtract := dataDir ++ ["_temp_archive_extract"]
      let pre : ARes :=
        if existsFS fs tempExtract then
          match removeDirAll fs tempExtract with
          | none => ARes.err (AErr.removeFailed tempExtract) fs []
          | some fs1 => ARes.ok fs1 [AEvent.removeDirAllEv tempExtract]
        else ARes.ok fs []
      pre.andThen fun fs1 tr1 =>
        let fs2 := createDirAll fs1 tempExtract
        let tr2 := tr1 ++ [AEvent.createDirAllEv tempExtract]
        let inner : ARes :=
          match archive2_extract toolOk fs2 archivePath tempExtract with
          | none => ARes.err AErr.toolFailed fs2 tr2
          | some fs3 =>
            let tr3 := tr2 ++ [AEvent.extractEv archivePath tempExtract]
            let fs4 := copy_dir_recursive fs3 sourceDir tempExtract
            let tr4 := tr3 ++ [AEvent.copyDirEv sourceDir tempExtract]
            match removeFile fs4 archivePath with
            | none => ARes.err (AErr.removeFailed archivePath) fs4 tr4
            | some fs5 =>
              let tr5 := tr4 ++ [AEvent.removeFileEv archivePath]
              match archive2_create toolOk fs5 tempExtract archivePath with
              | none => ARes.err AErr.toolFailed fs5 tr5
              | some fs6 =>
                ARes.ok fs6 (tr5 ++ [AEvent.archive2CreateEv tempExtract archivePath])
        let cleanup := fun (fsc : FS) (trc : List AEvent) =>
          if existsFS fsc tempExtract then
            match removeDirAll fsc tempExtract with
            | some fsd => (fsd, trc ++ [AEvent.removeDirAllEv tempExtract])
            | none => (fsc, trc ++ [AEvent.removeDirAllEv tempExtract])
          else (fsc, trc)
        match inner with
        | ARes.err e fsc trc =>
          ARes.err e (cleanup fsc trc).1 (cleanup fsc trc).2
        | ARes.ok fsc trc =>
          match removeDirAll (cleanup fsc trc).1 sourceDir with
          | none => ARes.err (AErr.removeFailed sourceDir) (cleanup fsc trc).1
              (cleanup fsc trc).2
          | some fse => ARes.ok fse
              ((cleanup fsc trc).2 ++ [AEvent.removeDirAllEv sourceDir])

/- ===== MO2 overlay collector (src/mo2_helper.rs) ===== -/

/-- The copy loop of Mo2Helper::collect_files_from_subpath (mo2_helper.rs
lines 103-146): for each file entry, abort with a fatal path-traversal error
when its relative path contains a parent-directory component, otherwise copy
it into the destination; the trace records each performed copy. -/
def collectLoop (searchPath destBase : FPath) :
    List (FPath × String) → FS → List AEvent →
      Except AErr Unit × FS × List AEvent
  | [], fs, tr => (Except.ok (), fs, tr)
  | (rel, c) :: rest, fs, tr =>
    if rel.contains ".." then
      (Except.error AErr.pathTraversal, fs, tr)
    else
      collectLoop searchPath destBase rest (writeEntry fs destBase rel c)
        (tr ++ [AEvent.copyFileEv (searchPath ++ rel) (destBase ++ rel)])

/-- Mo2Helper::collect_files_from_subpath (mo2_helper.rs lines 55-150):
return none when the subpath is missing, is not a directory, or holds no
files recursively; otherwise clean and recreate the destination scratch
directory and copy every file, aborting entirely on a path-traversal
entry. -/
def collect_files_from_subpath (stagingDir : FPath) (subpath : List String)
    (tempDir : FPath) (fs : FS) :
    Except AErr (Option FPath) × FS × List AEvent :=
  let searchPath := stagingDir ++ subpath
  if !(existsFS fs searchPath) then
    (Except.ok none, fs, [])
  else if !(isDirFS fs searchPath) then
    (Except.ok none, fs, [])
  else if (filesUnder fs searchPath).isEmpty then
    (Except.ok none, fs, [])
  else
    match (if existsFS fs tempDir then removeDirAll fs tempDir else some fs) with
    | none => (Except.error (AErr.removeFailed tempDir), fs, [])
    | some fs1 =>
      let tr1 : List AEvent :=
        if existsFS fs tempDir then [AEvent.removeDirAllEv tempDir] else []
      let destBase := tempDir ++ subpath
      let fs2 := createDirAll (createDirAll fs1 tempDir) destBase
      let tr2 := tr1 ++ [AEvent.createDirAllEv tempDir,
        AEvent.createDirAllEv destBase]
      match collectLoop searchPath destBase (filesUnder fs searchPath) fs2 tr2 with
      | (Except.ok (), fs4, tr4) => (Except.ok (some tempDir), fs4, tr4)
      | (Except.error e, fs4, tr4) => (Except.error e, fs4, tr4)

/-- ArchiveManager::create_archive_from_precombines (archive.rs lines
404-444): in MO2 mode, collect the precombined meshes from the staging
directory into the scratch directory, archive from there, and only then
remove the scratch directory — a collection or archiving error is propagated
by the question-mark operator before the cleanup statement runs; in standard
mode archive directly from Data/meshes/precombined. -/
def create_archive_from_precombines (tool : ArchiveTool) (toolOk : Bool)
    (fallout4Dir : FPath) (archiveName : String) (mo2DataDir : Option FPath)
    (fs : FS) : ARes :=
  let dataDir := fallout4Dir ++ ["Data"]
  match mo2DataDir with
  | some mo2Staging =>
    if !(existsFS fs mo2Staging) then
      ARes.err AErr.mo2StagingMissing fs []
    else
      let tempCollect := dataDir ++ ["_temp_mo2_collect"]
      match collect_files_from_subpath mo2Staging ["meshes", "precombined"]
          tempCollect fs with
      | (Except.error e, fs1, tr1) => ARes.err e fs1 tr1
      | (Except.ok none, fs1, tr1) => ARes.err AErr.noFilesFound fs1 tr1
      | (Except.ok (some collected), fs1, tr1) =>
        match create_archive tool toolOk fallout4Dir collected archiveName fs1 with
        | ARes.err e fs2 tr2 => ARes.err e fs2 (tr1 ++ tr2)
        | ARes.ok fs2 tr2 =>
          if existsFS fs2 tempCollect then
            match removeDirAll fs2 tempCollect with
            | none => ARes.err (AErr.removeFailed tempCollect) fs2 (tr1 ++ tr2)
            | some fs3 =>
              ARes.ok fs3 (tr1 ++ tr2 ++ [AEvent.removeDirAllEv tempCollect])
          else ARes.ok fs2 (tr1 ++ tr2)
  | none =>
    create_archive tool toolOk fallout4Dir (dataDir ++ ["meshes", "precombined"])
      archiveName fs

/-- ArchiveManager::add_previs_to_archive (archive.rs lines 726-766): the
append analogue of create_archive_from_precombines, collecting from the vis
subpath and appending to the existing archive; the scratch cleanup likewise
runs only after a successful append. -/
def add_previs_to_archive (tool : ArchiveTool) (toolOk : Bool)
    (fallout4Dir : FPath) (archiveName : String) (mo2DataDir : Option FPath)
    (fs : FS) : ARes :=
  let dataDir := fallout4Dir ++ ["Data"]
  match mo2DataDir with
  | some mo2Staging =>
    if !(existsFS fs mo2Staging) then
      ARes.err AErr.mo2StagingMissing fs []
    else
      let tempCollect := dataDir ++ ["_temp_mo2_collect"]
      match collect_files_from_subpath mo2Staging ["vis"] tempCollect fs with
      | (Except.error e, fs1, tr1) => ARes.err e fs1 tr1
      | (Except.ok none, fs1, tr1) => ARes.err AErr.noFilesFound fs1 tr1
      | (Except.ok (some collected), fs1, tr1) =>
        match add_to_archive tool toolOk fallout4Dir collected archiveName fs1 with
        | ARes.err e fs2 tr2 => ARes.err e fs2 (tr1 ++ tr2)
        | ARes.ok fs2 tr2 =>
          if existsFS fs2 tempCollect then
            match removeDirAll fs2 tempCollect with
            | none => ARes.err (AErr.removeFailed tempCollect) fs2 (tr1 ++ tr2)
            | some fs3 =>
              ARes.ok fs3 (tr1 ++ tr2 ++ [AEvent.removeDirAllEv tempCollect])
          else ARes.ok fs2 (tr1 ++ tr2)
  | none =>
    add_to_archive tool toolOk fallout4Dir (dataDir ++ ["vis"]) archiveName fs

/- ===== Lemmas about the filesystem model ===== -/

/-- The filesystem carried by an operation outcome. -/
def aresFS : ARes → FS
  | ARes.ok fs _ => fs
  | ARes.err _ fs _ => fs

/-- Whether an operation outcome is a success. -/
def aresOk : ARes → Bool
  | ARes.ok _ _ => true
  | ARes.err _ _ _ => false

/-- The trace carried by an operation outcome. -/
def aresTrace : ARes → List AEvent
  | ARes.ok _ tr => tr
  | ARes.err _ _ tr => tr

theorem lookupFS_filterKey (pred : FPath → Bool) :
    ∀ (fs : FS) (p : FPath),
      lookupFS (fs.filter (fun q => pred q.1)) p
        = if pred p then lookupFS fs p else none := by
  intro fs
  induction fs with
  | nil =>
    intro p
    cases hp : pred p <;> simp [lookupFS, hp]
  | cons qe rest ih =>
    intro p
    obtain ⟨q, e⟩ := qe
    rw [List.filter_cons]
    by_cases hq : pred q
    · simp only [hq, if_true]
      by_cases hqp : q = p
      · subst hqp
        simp [lookupFS, hq]
      · rw [lookupFS, if_neg hqp, ih, lookupFS, if_neg hqp]
    · simp only [hq]
      rw [if_neg (by simp [hq]), ih]
      by_cases hqp : q = p
      · subst hqp
        rw [if_neg (by simp [hq]), lookupFS, if_pos rfl]
        simp [hq]
      · rw [lookupFS, if_neg hqp]

theorem lookupFS_setEntry (fs : FS) (p : FPath) (e : FEntry) (q : FPath) :
    lookupFS (setEntry fs p e) q = if q = p then some e else lookupFS fs q := by
  rw [setEntry, lookupFS]
  by_cases hpq : p = q
  · subst hpq
    simp
  · rw [if_neg hpq, if_neg (Ne.symm hpq),
      lookupFS_filterKey (fun x => !(decide (x = p)))]
    rw [if_pos (by simp [Ne.symm hpq])]

theorem underPath_refl : ∀ (p : FPath), underPath p p = true := by
  intro p
  induction p with
  | nil => rfl
  | cons a t ih => simp [underPath, ih]

theorem existsFS_setEntry_mono (fs : FS) (p q : FPath) (e : FEntry)
    (h : existsFS fs q = true) : existsFS (setEntry fs p e) q = true := by
  rw [existsFS, lookupFS_setEntry]
  by_cases hq : q = p
  · simp [hq]
  · rw [if_neg hq]
    exact h

theorem existsFS_cons_mono (fs : FS) (r : FPath) (d : FEntry) (q : FPath)
    (h : existsFS fs q = true) : existsFS ((r, d) :: fs) q = true := by
  rw [existsFS, lookupFS]
  by_cases hr : r = q
  · simp [hr]
  · rw [if_neg hr]
    exact h

theorem existsFS_dirfold_mono (qs : List FPath) :
    ∀ (fs : FS) (q : FPath), existsFS fs q = true →
      existsFS (qs.foldl
        (fun acc r => if existsFS acc r then acc else (r, FEntry.dir) :: acc) fs)
        q = true := by
  induction qs with
  | nil =>
    intro fs q h
    exact h
  | cons a t ih =>
    intro fs q h
    rw [List.foldl_cons]
    apply ih
    by_cases ha : existsFS fs a
    · rw [if_pos ha]
      exact h
    · rw [if_neg ha]
      exact existsFS_cons_mono fs a FEntry.dir q h

theorem existsFS_dirfold_mem (qs : List FPath) :
    ∀ (fs : FS) (q : FPath), q ∈ qs →
      existsFS (qs.foldl
        (fun acc r => if existsFS acc r then acc else (r, FEntry.dir) :: acc) fs)
        q = true := by
  induction qs with
  | nil =>
    intro fs q h
    cases h
  | cons a t ih =>
    intro fs q h
    rw [List.foldl_cons]
    rcases List.mem_cons.mp h with rfl | hmem
    · apply existsFS_dirfold_mono
      by_cases ha : existsFS fs q
      · rw [if_pos ha]
        exact ha
      · rw [if_neg ha, existsFS, lookupFS, if_pos rfl]
        rfl
    · exact ih _ q hmem

theorem mem_pathPrefixes_self : ∀ (p : FPath), p ≠ [] → p ∈ pathPrefixes p := by
  intro p
  induction p with
  | nil =>
    intro h
    exact absurd rfl h
  | cons a t ih =>
    intro _
    rw [pathPrefixes]
    cases ht : t with
    | nil => simp
    | cons b u =>
      right
      refine List.mem_map.mpr ⟨t, ?_, by rw [ht]⟩
      rw [ht]
      exact ht ▸ ih (by simp [ht])

theorem existsFS_createDirAll_mono (fs : FS) (p q : FPath)
    (h : existsFS fs q = true) : existsFS (createDirAll fs p) q = true :=
  existsFS_dirfold_mono (pathPrefixes p) fs q h

theorem existsFS_createDirAll_self (fs : FS) (p : FPath) (hp : p ≠ []) :
    existsFS (createDirAll fs p) p = true :=
  existsFS_dirfold_mem (pathPrefixes p) fs p (mem_pathPrefixes_self p hp)

theorem existsFS_writeEntry_mono (fs : FS) (dest rel : FPath) (c : String)
    (q : FPath) (h : existsFS fs q = true) :
    existsFS (writeEntry fs dest rel c) q = true :=
  existsFS_setEntry_mono _ _ _ _ (existsFS_createDirAll_mono _ _ _ h)

theorem existsFS_writefold_mono (entries : List (FPath × String)) (dest : FPath) :
    ∀ (fs : FS) (q : FPath), existsFS fs q = true →
      existsFS (entries.foldl (fun acc e => writeEntry acc dest e.1 e.2) fs)
        q = true := by
  induction entries with
  | nil =>
    intro fs q h
    exact h
  | cons a t ih =>
    intro fs q h
    rw [List.foldl_cons]
    exact ih _ q (existsFS_writeEntry_mono fs dest a.1 a.2 q h)

theorem existsFS_extract_mono (toolOk : Bool) (fs : FS) (ap d : FPath)
    (fs2 : FS) (h : archive2_extract toolOk fs ap d = some fs2)
    (q : FPath) (hq : existsFS fs q = true) : existsFS fs2 q = true := by
  rw [archive2_extract] at h
  cases toolOk with
  | false => cases h
  | true =>
    rw [if_pos rfl] at h
    cases hl : lookupFS fs ap with
    | none =>
      rw [hl] at h
      cases h
    | some e =>
      rw [hl] at h
      cases e with
      | dir => cases h
      | file c => cases h
      | archiveData entries =>
        have : entries.foldl (fun acc e => writeEntry acc d e.1 e.2) fs = fs2 :=
          Option.some.inj h
        rw [← this]
        exact existsFS_writefold_mono entries d fs q hq

theorem existsFS_copy_mono (fs : FS) (src dst q : FPath)
    (h : existsFS fs q = true) :
    existsFS (copy_dir_recursive fs src dst) q = true := by
  rw [copy_dir_recursive]
  apply existsFS_writefold_mono
  by_cases hd : existsFS fs dst
  · rw [if_pos hd]
    exact h
  · rw [if_neg hd]
    exact existsFS_createDirAll_mono fs dst q h

/-- C3: appending to a missing archive fails with the archive-missing error
before any effect: for both backend profiles the filesystem is returned
unchanged and the event trace is empty. -/
theorem C3_append_missing_archive (tool : ArchiveTool) (toolOk : Bool)
    (fallout4Dir sourceDir : FPath) (archiveName : String) (fs : FS)
    (h : existsFS fs (fallout4Dir ++ ["Data"] ++ [archiveName]) = false) :
    add_to_archive tool toolOk fallout4Dir sourceDir archiveName fs
      = ARes.err AErr.archiveMissing fs [] := by
  have h' : existsFS fs (fallout4Dir ++ ["Data", archiveName]) = false := by
    simpa using h
  rw [add_to_archive.eq_def]
  simp [h']

/-- Witness for C3 at a concrete input: an empty filesystem with either
profile. -/
theorem C3_append_missing_archive_witness :
    existsFS [] (["FO4"] ++ ["Data"] ++ ["M - Main.ba2"]) = false
    ∧ add_to_archive ArchiveTool.archive2 true ["FO4"] ["FO4", "Data", "vis"]
        "M - Main.ba2" [] = ARes.err AErr.archiveMissing [] []
    ∧ add_to_archive ArchiveTool.bsarch true ["FO4"] ["FO4", "Data", "vis"]
        "M - Main.ba2" [] = ARes.err AErr.archiveMissing [] [] := by
  refine ⟨rfl, ?_, ?_⟩
  · exact C3_append_missing_archive ArchiveTool.archive2 true ["FO4"]
      ["FO4", "Data", "vis"] "M - Main.ba2" [] rfl
  · exact C3_append_missing_archive ArchiveTool.bsarch true ["FO4"]
      ["FO4", "Data", "vis"] "M - Main.ba2" [] rfl

/-- C4: after a successful create with a healthy archiver, the nominal
archive file exists, and the fate of the source directory depends only on
the profile: the Archive2 (extract-modify-repack) profile deletes the source
directory and everything under it, while the BSArch (direct-append) profile
leaves every other path binding unchanged. -/
theorem C4_create_archive_effects (tool : ArchiveTool)
    (fallout4Dir sourceDir : FPath) (archiveName : String) (fs : FS)
    (hsrc : existsFS fs sourceDir = true)
    (hnotunder : underPath sourceDir (fallout4Dir ++ ["Data"] ++ [archiveName])
      = false) :
    aresOk (create_archive tool true fallout4Dir sourceDir archiveName fs) = true
    ∧ existsFS (aresFS (create_archive tool true fallout4Dir sourceDir
        archiveName fs)) (fallout4Dir ++ ["Data"] ++ [archiveName]) = true
    ∧ (tool = ArchiveTool.archive2 →
        ∀ p, underPath sourceDir p = true →
          lookupFS (aresFS (create_archive tool true fallout4Dir sourceDir
            archiveName fs)) p = none)
    ∧ (tool = ArchiveTool.bsarch →
        ∀ p, p ≠ fallout4Dir ++ ["Data"] ++ [archiveName] →
          lookupFS (aresFS (create_archive tool true fallout4Dir sourceDir
            archiveName fs)) p = lookupFS fs p) := by
  have hne : sourceDir ≠ fallout4Dir ++ ["Data"] ++ [archiveName] := by
    intro heq
    rw [heq] at hnotunder
    rw [underPath_refl] at hnotunder
    cases hnotunder
  cases tool with
  | archive2 =>
    have hcreate : archive2_create true fs sourceDir
        (fallout4Dir ++ ["Data"] ++ [archiveName])
        = some (setEntry fs (fallout4Dir ++ ["Data"] ++ [archiveName])
            (FEntry.archiveData (filesUnder fs sourceDir))) := by
      rw [archive2_create, if_pos rfl]
    have hsrc1 : existsFS (setEntry fs (fallout4Dir ++ ["Data"] ++ [archiveName])
        (FEntry.archiveData (filesUnder fs sourceDir))) sourceDir = true := by
      rw [existsFS, lookupFS_setEntry, if_neg hne]
      exact hsrc
    have hremove : removeDirAll (setEntry fs
        (fallout4Dir ++ ["Data"] ++ [archiveName])
        (FEntry.archiveData (filesUnder fs sourceDir))) sourceDir
        = some ((setEntry fs (fallout4Dir ++ ["Data"] ++ [archiveName])
            (FEntry.archiveData (filesUnder fs sourceDir))).filter
              (fun q => !(underPath sourceDir q.1))) := by
      rw [removeDirAll, if_pos hsrc1]
    have hres : create_archive ArchiveTool.archive2 true fallout4Dir sourceDir
        archiveName fs
        = ARes.ok ((setEntry fs (fallout4Dir ++ ["Data"] ++ [archiveName])
            (FEntry.archiveData (filesUnder fs sourceDir))).filter
              (fun q => !(underPath sourceDir q.1)))
            [AEvent.archive2CreateEv sourceDir
               (fallout4Dir ++ ["Data"] ++ [archiveName]),
             AEvent.removeDirAllEv sourceDir] := by
      rw [create_archive]
      simp only [List.append_assoc] at hcreate hremove ⊢
      simp only [hcreate, hremove]
    rw [hres]
    refine ⟨rfl, ?_, ?_, ?_⟩
    · rw [aresFS, existsFS, lookupFS_filterKey (fun x => !(underPath sourceDir x))]
      rw [if_pos (by rw [hnotunder]; rfl), lookupFS_setEntry, if_pos rfl]
      rfl
    · intro _ p hp
      rw [aresFS, lookupFS_filterKey (fun x => !(underPath sourceDir x))]
      rw [if_neg (by rw [hp]; simp)]
    · intro hbad
      cases hbad
  | bsarch =>
    have hpack : bsarch_pack true fs sourceDir
        (fallout4Dir ++ ["Data"] ++ [archiveName])
        = some (setEntry fs (fallout4Dir ++ ["Data"] ++ [archiveName])
            (FEntry.archiveData
              (match lookupFS fs (fallout4Dir ++ ["Data"] ++ [archiveName]) with
               | some (FEntry.archiveData old) =>
                 filesUnder fs sourceDir
                   ++ old.filter (fun e =>
                        !((filesUnder fs sourceDir).any
                            (fun n => decide (n.1 = e.1))))
               | _ => filesUnder fs sourceDir))) := by
      rw [bsarch_pack, if_pos rfl]
    have hres : create_archive ArchiveTool.bsarch true fallout4Dir sourceDir
        archiveName fs
        = ARes.ok (setEntry fs (fallout4Dir ++ ["Data"] ++ [archiveName])
            (FEntry.archiveData
              (match lookupFS fs (fallout4Dir ++ ["Data"] ++ [archiveName]) with
               | some (FEntry.archiveData old) =>
                 filesUnder fs sourceDir
                   ++ old.filter (fun e =>
                        !((filesUnder fs sourceDir).any
                            (fun n => decide (n.1 = e.1))))
               | _ => filesUnder fs sourceDir)))
            [AEvent.bsarchPackEv sourceDir
               (fallout4Dir ++ ["Data"] ++ [archiveName])] := by
      rw [create_archive]
      simp only [List.append_assoc] at hpack ⊢
      simp only [hpack]
    rw [hres]
    refine ⟨rfl, ?_, ?_, ?_⟩
    · rw [aresFS, existsFS, lookupFS_setEntry, if_pos rfl]
      rfl
    · intro hbad
      cases hbad
    · intro _ p hp
      rw [aresFS, lookupFS_setEntry, if_neg hp]

/-- Witness for C4 at a concrete filesystem holding one precombined mesh:
with Archive2 the source directory is consumed, with BSArch it survives, and
the archive exists in both outcomes. -/
theorem C4_create_archive_effects_witness :
    existsFS [(["FO4", "Data", "pre"], FEntry.dir),
       (["FO4", "Data", "pre", "a.nif"], FEntry.file "n")] ["FO4", "Data", "pre"]
      = true
    ∧ underPath ["FO4", "Data", "pre"] (["FO4"] ++ ["Data"] ++ ["M - Main.ba2"])
      = false
    ∧ existsFS (aresFS (create_archive ArchiveTool.archive2 true ["FO4"]
        ["FO4", "Data", "pre"] "M - Main.ba2"
        [(["FO4", "Data", "pre"], FEntry.dir),
         (["FO4", "Data", "pre", "a.nif"], FEntry.file "n")]))
        (["FO4"] ++ ["Data"] ++ ["M - Main.ba2"]) = true
    ∧ lookupFS (aresFS (create_archive ArchiveTool.archive2 true ["FO4"]
        ["FO4", "Data", "pre"] "M - Main.ba2"
        [(["FO4", "Data", "pre"], FEntry.dir),
         (["FO4", "Data", "pre", "a.nif"], FEntry.file "n")]))
        ["FO4", "Data", "pre"] = none
    ∧ lookupFS (aresFS (create_archive ArchiveTool.bsarch true ["FO4"]
        ["FO4", "Data", "pre"] "M - Main.ba2"
        [(["FO4", "Data", "pre"], FEntry.dir),
         (["FO4", "Data", "pre", "a.nif"], FEntry.file "n")]))
        ["FO4", "Data", "pre", "a.nif"]
      = lookupFS [(["FO4", "Data", "pre"], FEntry.dir),
         (["FO4", "Data", "pre", "a.nif"], FEntry.file "n")]
          ["FO4", "Data", "pre", "a.nif"] := by
  have h := C4_create_archive_effects ArchiveTool.archive2 ["FO4"]
    ["FO4", "Data", "pre"] "M - Main.ba2"
    [(["FO4", "Data", "pre"], FEntry.dir),
     (["FO4", "Data", "pre", "a.nif"], FEntry.file "n")] rfl rfl
  have h2 := C4_create_archive_effects ArchiveTool.bsarch ["FO4"]
    ["FO4", "Data", "pre"] "M - Main.ba2"
    [(["FO4", "Data", "pre"], FEntry.dir),
     (["FO4", "Data", "pre", "a.nif"], FEntry.file "n")] rfl rfl
  exact ⟨rfl, rfl, h.2.1,
    h.2.2.1 rfl ["FO4", "Data", "pre"] (by decide),
    h2.2.2.2 rfl ["FO4", "Data", "pre", "a.nif"] (by decide)⟩

/-- C5: every successful append with the Archive2 (extract-modify-repack)
profile performs exactly this effect sequence, in order: prepare the scratch
directory, extract the existing archive into it, recursively copy the source
files over it (overwriting on collision), delete the original archive file,
recreate the archive from the merged scratch directory, delete the scratch
directory, and finally delete the source directory. -/
theorem C5_extract_modify_repack_sequence (toolOk : Bool)
    (fallout4Dir sourceDir : FPath) (archiveName : String) (fs fs' : FS)
    (tr : List AEvent)
    (hpre : existsFS fs (fallout4Dir ++ ["Data", "_temp_archive_extract"])
      = false)
    (hname : archiveName ≠ "_temp_archive_extract")
    (hok : add_to_archive ArchiveTool.archive2 toolOk fallout4Dir sourceDir
        archiveName fs = ARes.ok fs' tr) :
    tr = [AEvent.createDirAllEv (fallout4Dir ++ ["Data", "_temp_archive_extract"]),
          AEvent.extractEv (fallout4Dir ++ ["Data", archiveName])
            (fallout4Dir ++ ["Data", "_temp_archive_extract"]),
          AEvent.copyDirEv sourceDir
            (fallout4Dir ++ ["Data", "_temp_archive_extract"]),
          AEvent.removeFileEv (fallout4Dir ++ ["Data", archiveName]),
          AEvent.archive2CreateEv
            (fallout4Dir ++ ["Data", "_temp_archive_extract"])
            (fallout4Dir ++ ["Data", archiveName]),
          AEvent.removeDirAllEv
            (fallout4Dir ++ ["Data", "_temp_archive_extract"]),
          AEvent.removeDirAllEv sourceDir] := by
  have hne_ap : (fallout4Dir ++ ["Data", "_temp_archive_extract"])
      ≠ (fallout4Dir ++ ["Data", archiveName]) := by
    intro heq
    have h2 := List.append_cancel_left heq
    have h3 : "_temp_archive_extract" = archiveName := by
      injection h2 with _ h4
      injection h4
    exact hname h3.symm
  rw [add_to_archive.eq_def] at hok
  simp only [List.append_assoc, List.singleton_append] at hok
  cases toolOk with
  | false =>
    cases harc : existsFS fs (fallout4Dir ++ ["Data", archiveName]) with
    | false =>
      rw [harc] at hok
      simp at hok
    | true =>
      rw [harc, hpre] at hok
      simp only [Bool.not_true, Bool.false_eq_true, if_false, ARes.andThen]
        at hok
      rw [show archive2_extract false
          (createDirAll fs (fallout4Dir ++ ["Data", "_temp_archive_extract"]))
          (fallout4Dir ++ ["Data", archiveName])
          (fallout4Dir ++ ["Data", "_temp_archive_extract"]) = none from rfl]
        at hok
      simp at hok
  | true =>
    cases harc : existsFS fs (fallout4Dir ++ ["Data", archiveName]) with
    | false =>
      rw [harc] at hok
      simp at hok
    | true =>
      rw [harc, hpre] at hok
      simp only [Bool.not_true, Bool.false_eq_true, if_false, ARes.andThen]
        at hok
      cases hext : archive2_extract true
          (createDirAll fs (fallout4Dir ++ ["Data", "_temp_archive_extract"]))
          (fallout4Dir ++ ["Data", archiveName])
          (fallout4Dir ++ ["Data", "_temp_archive_extract"]) with
      | none =>
        rw [hext] at hok
        simp at hok
      | some fs3 =>
        rw [hext] at hok
        simp only [] at hok
        cases hrm : removeFile (copy_dir_recursive fs3 sourceDir
            (fallout4Dir ++ ["Data", "_temp_archive_extract"]))
            (fallout4Dir ++ ["Data", archiveName]) with
        | none =>
          rw [hrm] at hok
          simp at hok
        | some fs5 =>
          rw [hrm] at hok
          simp only [] at hok
          cases hcr : archive2_create true fs5
              (fallout4Dir ++ ["Data", "_temp_archive_extract"])
              (fallout4Dir ++ ["Data", archiveName]) with
          | none =>
            rw [hcr] at hok
            simp at hok
          | some fs6 =>
            rw [hcr] at hok
            simp only [] at hok
            have h2 : existsFS (createDirAll fs
                (fallout4Dir ++ ["Data", "_temp_archive_extract"]))
                (fallout4Dir ++ ["Data", "_temp_archive_extract"]) = true :=
              existsFS_createDirAll_self fs _ (by simp)
            have h3 : existsFS fs3
                (fallout4Dir ++ ["Data", "_temp_archive_extract"]) = true :=
              existsFS_extract_mono true _ _ _ fs3 hext _ h2
            have h4 : existsFS (copy_dir_recursive fs3 sourceDir
                (fallout4Dir ++ ["Data", "_temp_archive_extract"]))
                (fallout4Dir ++ ["Data", "_temp_archive_extract"]) = true :=
              existsFS_copy_mono fs3 sourceDir _ _ h3
            have hfs5 : fs5 = (copy_dir_recursive fs3 sourceDir
                (fallout4Dir ++ ["Data", "_temp_archive_extract"])).filter
                  (fun q => !(decide
                    (q.1 = fallout4Dir ++ ["Data", archiveName]))) := by
              rw [removeFile] at hrm
              cases hl4 : lookupFS (copy_dir_recursive fs3 sourceDir
                  (fallout4Dir ++ ["Data", "_temp_archive_extract"]))
                  (fallout4Dir ++ ["Data", archiveName]) with
              | none =>
                rw [hl4] at hrm
                cases hrm
              | some e =>
                rw [hl4] at hrm
                cases e with
                | dir => cases hrm
                | file c => exact (Option.some.inj hrm).symm
                | archiveData es => exact (Option.some.inj hrm).symm
            have h5 : existsFS fs5
                (fallout4Dir ++ ["Data", "_temp_archive_extract"]) = true := by
              rw [hfs5, existsFS, lookupFS_filterKey
                (fun x => !(decide (x = fallout4Dir ++ ["Data", archiveName])))]
              rw [if_pos (by simp [hne_ap])]
              exact h4
            have hfs6 : fs6 = setEntry fs5
                (fallout4Dir ++ ["Data", archiveName])
                (FEntry.archiveData (filesUnder fs5
                  (fallout4Dir ++ ["Data", "_temp_archive_extract"]))) := by
              rw [archive2_create, if_pos rfl] at hcr
              exact (Option.some.inj hcr).symm
            have h6 : existsFS fs6
                (fallout4Dir ++ ["Data", "_temp_archive_extract"]) = true := by
              rw [hfs6]
              exact existsFS_setEntry_mono fs5 _ _ _ h5
            rw [h6] at hok
            simp only [if_true] at hok
            cases hclean : removeDirAll fs6
                (fallout4Dir ++ ["Data", "_temp_archive_extract"]) with
            | none =>
              rw [hclean] at hok
              simp only [] at hok
              cases hfin : removeDirAll fs6 sourceDir with
              | none =>
                rw [hfin] at hok
                simp at hok
              | some fse =>
                rw [hfin] at hok
                simp only [] at hok
                cases hok
                simp
            | some fsd =>
              rw [hclean] at hok
              simp only [] at hok
              cases hfin : removeDirAll fsd sourceDir with
              | none =>
                rw [hfin] at hok
                simp at hok
              | some fse =>
                rw [hfin] at hok
                simp only [] at hok
                cases hok
                simp

/-- Concrete filesystem for the C5 witness: an existing archive holding one
mesh, and a vis directory holding one previs file. -/
def c5FS : FS :=
  [(["FO4", "Data"], FEntry.dir),
   (["FO4", "Data", "M - Main.ba2"],
     FEntry.archiveData [(["meshes", "a.nif"], "n")]),
   (["FO4", "Data", "vis"], FEntry.dir),
   (["FO4", "Data", "vis", "b.uvd"], FEntry.file "u")]

/-- Witness for C5 at a concrete successful append: the recorded effect
sequence is exactly prepare scratch, extract, copy, delete archive,
recreate, delete scratch, delete source. -/
theorem C5_extract_modify_repack_sequence_witness :
    existsFS c5FS (["FO4"] ++ ["Data", "_temp_archive_extract"]) = false
    ∧ aresTrace (add_to_archive ArchiveTool.archive2 true ["FO4"]
        ["FO4", "Data", "vis"] "M - Main.ba2" c5FS)
      = [AEvent.createDirAllEv (["FO4"] ++ ["Data", "_temp_archive_extract"]),
         AEvent.extractEv (["FO4"] ++ ["Data", "M - Main.ba2"])
           (["FO4"] ++ ["Data", "_temp_archive_extract"]),
         AEvent.copyDirEv ["FO4", "Data", "vis"]
           (["FO4"] ++ ["Data", "_temp_archive_extract"]),
         AEvent.removeFileEv (["FO4"] ++ ["Data", "M - Main.ba2"]),
         AEvent.archive2CreateEv (["FO4"] ++ ["Data", "_temp_archive_extract"])
           (["FO4"] ++ ["Data", "M - Main.ba2"]),
         AEvent.removeDirAllEv (["FO4"] ++ ["Data", "_temp_archive_extract"]),
         AEvent.removeDirAllEv ["FO4", "Data", "vis"]] := by
  refine ⟨rfl, ?_⟩
  have hruns : aresOk (add_to_archive ArchiveTool.archive2 true ["FO4"]
      ["FO4", "Data", "vis"] "M - Main.ba2" c5FS) = true := by decide
  cases hres : add_to_archive ArchiveTool.archive2 true ["FO4"]
      ["FO4", "Data", "vis"] "M - Main.ba2" c5FS with
  | err e f t =>
    rw [hres] at hruns
    simp [aresOk] at hruns
  | ok f t =>
    have htr := C5_extract_modify_repack_sequence true ["FO4"]
      ["FO4", "Data", "vis"] "M - Main.ba2" c5FS f t (by decide) (by decide)
      hres
    simp only [aresTrace]
    exact htr

/-- Concrete filesystem for the C6 evaluation, create path: an MO2 staging
directory holding one precombined mesh. -/
def c6FS : FS :=
  [(["FO4"], FEntry.dir), (["FO4", "Data"], FEntry.dir),
   (["MO2"], FEntry.dir), (["MO2", "meshes"], FEntry.dir),
   (["MO2", "meshes", "precombined"], FEntry.dir),
   (["MO2", "meshes", "precombined", "a.nif"], FEntry.file "n")]

/-- Concrete filesystem for the C6 evaluation, append path: an existing
archive and an MO2 staging directory holding one previs file. -/
def c6FSb : FS :=
  [(["FO4"], FEntry.dir), (["FO4", "Data"], FEntry.dir),
   (["FO4", "Data", "M - Main.ba2"], FEntry.archiveData [(["x.nif"], "n")]),
   (["MO2"], FEntry.dir), (["MO2", "vis"], FEntry.dir),
   (["MO2", "vis", "b.uvd"], FEntry.file "u")]

/-- C6 evaluated at the failing inputs: in overlay mode, when the inner
archive operation fails (here the archiver invocation itself fails), both
the create path and the append path return the error with the scratch
directory Data/_temp_mo2_collect still present — the cleanup statement sits
after the error propagation — whereas on the success path the scratch
directory is gone afterwards. -/
theorem C6_scratch_cleanup_skipped_on_error :
    aresOk (create_archive_from_precombines ArchiveTool.archive2 false ["FO4"]
        "M - Main.ba2" (some ["MO2"]) c6FS) = false
    ∧ existsFS (aresFS (create_archive_from_precombines ArchiveTool.archive2
        false ["FO4"] "M - Main.ba2" (some ["MO2"]) c6FS))
        ["FO4", "Data", "_temp_mo2_collect"] = true
    ∧ aresOk (add_previs_to_archive ArchiveTool.archive2 false ["FO4"]
        "M - Main.ba2" (some ["MO2"]) c6FSb) = false
    ∧ existsFS (aresFS (add_previs_to_archive ArchiveTool.archive2 false
        ["FO4"] "M - Main.ba2" (some ["MO2"]) c6FSb))
        ["FO4", "Data", "_temp_mo2_collect"] = true
    ∧ aresOk (create_archive_from_precombines ArchiveTool.archive2 true ["FO4"]
        "M - Main.ba2" (some ["MO2"]) c6FS) = true
    ∧ existsFS (aresFS (create_archive_from_precombines ArchiveTool.archive2
        true ["FO4"] "M - Main.ba2" (some ["MO2"]) c6FS))
        ["FO4", "Data", "_temp_mo2_collect"] = false := by
  refine ⟨by decide, by decide, by decide, by decide, by decide, by decide⟩

/- ===== C9: the overlay collector ===== -/

theorem collectLoop_splits (sp db : FPath) :
    ∀ (good : List (FPath × String)) (bad : FPath × String)
      (rest : List (FPath × String)) (fs : FS) (tr : List AEvent),
      (∀ e ∈ good, e.1.contains ".." = false) →
      bad.1.contains ".." = true →
      collectLoop sp db (good ++ bad :: rest) fs tr
        = (Except.error AErr.pathTraversal,
           good.foldl (fun acc e => writeEntry acc db e.1 e.2) fs,
           tr ++ good.map (fun e => AEvent.copyFileEv (sp ++ e.1) (db ++ e.1))) := by
  intro good
  induction good with
  | nil =>
    intro bad rest fs tr hg hb
    obtain ⟨rel, c⟩ := bad
    have hb' : rel.contains ".." = true := hb
    rw [List.nil_append, collectLoop, if_pos hb']
    simp
  | cons g gs ih =>
    intro bad rest fs tr hg hb
    obtain ⟨rel, c⟩ := g
    have hgood : rel.contains ".." = false := hg (rel, c) (by simp)
    rw [List.cons_append, collectLoop,
      if_neg (by simp only [hgood]; simp)]
    rw [ih bad rest _ _ (fun e he => hg e (by simp [he])) hb]
    simp

/-- C9: the overlay collector returns none without error when the searched
subpath does not exist or holds no files recursively; and when the walk
yields a clean prefix followed by an entry whose relative path contains a
parent-directory component, the whole operation aborts with the fatal
path-traversal error, having copied exactly the clean files before the
offending entry and none after it. -/
theorem C9_overlay_collector (stagingDir tempDir : FPath)
    (subpath : List String) (fs : FS) (good : List (FPath × String))
    (bad : FPath × String) (rest : List (FPath × String)) :
    (existsFS fs (stagingDir ++ subpath) = false →
      collect_files_from_subpath stagingDir subpath tempDir fs
        = (Except.ok none, fs, []))
    ∧ (filesUnder fs (stagingDir ++ subpath) = [] →
        collect_files_from_subpath stagingDir subpath tempDir fs
          = (Except.ok none, fs, []))
    ∧ (isDirFS fs (stagingDir ++ subpath) = true →
        existsFS fs tempDir = false →
        filesUnder fs (stagingDir ++ subpath) = good ++ bad :: rest →
        (∀ e ∈ good, e.1.contains ".." = false) →
        bad.1.contains ".." = true →
        collect_files_from_subpath stagingDir subpath tempDir fs
          = (Except.error AErr.pathTraversal,
             good.foldl
               (fun acc e => writeEntry acc (tempDir ++ subpath) e.1 e.2)
               (createDirAll (createDirAll fs tempDir) (tempDir ++ subpath)),
             [AEvent.createDirAllEv tempDir,
              AEvent.createDirAllEv (tempDir ++ subpath)]
               ++ good.map (fun e => AEvent.copyFileEv
                    (stagingDir ++ subpath ++ e.1)
                    (tempDir ++ subpath ++ e.1)))) := by
  refine ⟨?_, ?_, ?_⟩
  · intro hmiss
    rw [collect_files_from_subpath]
    simp [hmiss]
  · intro hempty
    rw [collect_files_from_subpath]
    cases hex : existsFS fs (stagingDir ++ subpath) with
    | false => simp [hex]
    | true =>
      cases hdir : isDirFS fs (stagingDir ++ subpath) with
      | false => simp [hex, hdir]
      | true => simp [hex, hdir, hempty]
  · intro hdir htd hfu hg hb
    have hex : existsFS fs (stagingDir ++ subpath) = true := by
      rw [isDirFS] at hdir
      rw [existsFS]
      cases hl : lookupFS fs (stagingDir ++ subpath) with
      | none =>
        rw [hl] at hdir
        cases hdir
      | some e => rfl
    have hne : (filesUnder fs (stagingDir ++ subpath)).isEmpty = false := by
      rw [hfu]
      simp
    rw [collect_files_from_subpath]
    simp only [hex, hdir, hne, htd, Bool.not_true, Bool.false_eq_true,
      if_false, ite_false, Bool.not_false, if_true, ite_true]
    rw [hfu, collectLoop_splits (stagingDir ++ subpath) (tempDir ++ subpath)
      good bad rest _ _ hg hb]
    simp

/-- Concrete filesystem for the C9 witness: an overlay vis directory with
one clean file and one entry escaping through a parent-directory
component. -/
def c9FS : FS :=
  [(["MO2", "vis"], FEntry.dir),
   (["MO2", "vis", "ok.uvd"], FEntry.file "x"),
   (["MO2", "vis", "..", "evil.uvd"], FEntry.file "y")]

/-- Witness for C9 at a concrete traversal attempt: the collection aborts
with the path-traversal error after copying exactly the one clean file that
precedes the offending entry. -/
theorem C9_overlay_collector_witness :
    isDirFS c9FS (["MO2"] ++ ["vis"]) = true
    ∧ existsFS c9FS ["T"] = false
    ∧ (collect_files_from_subpath ["MO2"] ["vis"] ["T"] c9FS).1
        = Except.error AErr.pathTraversal
    ∧ (collect_files_from_subpath ["MO2"] ["vis"] ["T"] c9FS).2.2
        = [AEvent.createDirAllEv ["T"],
           AEvent.createDirAllEv (["T"] ++ ["vis"]),
           AEvent.copyFileEv (["MO2"] ++ ["vis"] ++ ["ok.uvd"])
             (["T"] ++ ["vis"] ++ ["ok.uvd"])] := by
  have h := (C9_overlay_collector ["MO2"] ["T"] ["vis"] c9FS
    [(["ok.uvd"], "x")] (["..", "evil.uvd"], "y") []).2.2
    rfl rfl (by decide) (by decide) (by decide)
  refine ⟨rfl, rfl, ?_, ?_⟩
  · rw [h]
  · rw [h]
    rfl

end Previs
